import Mathlib

/-!
Verification of the polars-go-bridge Go wrapper layer.

This file gives a shallow embedding of the Go wrapper code of the
polars-go-bridge repository (package `bridge`: src/bridge/loader_unix.go,
src/bridge/loader_win.go; package `polars`: src/polars/dataframe.go,
src/polars/dataframe_handle.go and the expression builder) and proves
the behavioural properties stated about it.

Modelling conventions:
  - Go byte slices and Go strings are `List Nat` (byte sequences).
  - Raw pointers are `Nat` addresses, with `0` the null pointer; the
    native heap visible through a pointer is a function `Nat → Nat`
    giving the byte stored at each address.
  - A Go `error` result is the `Except` error branch carrying the
    message bytes; `Except.ok` is the nil-error / result branch.
  - Go functions that can additionally fault at runtime (index out of
    range on a slice) return an `Outcome`, whose `panicked` branch is
    the Go runtime fault.
  - The engine (the Rust dynamic library) is a black box: each wrapper
    takes the engine's reply — status code, output registers and the
    state of the calling thread's last-error slot — as an argument and
    is proved correct for every possible reply.
  - Calls issued to the engine, and `output_free` invocations, are
    returned as explicit traces so that claims about what is (not)
    invoked become statements about the trace.
  - `uint32` arithmetic is `Nat` arithmetic reduced modulo `2 ^ 32`.
-/

namespace PolarsBridge

/-- Byte sequence of an ASCII Go string literal. -/
def strLit (s : String) : List Nat := s.toList.map Char.toNat

/-- Result of a Go function that may return normally, return a non-nil
error, or fault at runtime (slice index out of range). -/
inductive Outcome (α : Type) where
  | ok (a : α)
  | err (msg : List Nat)
  | panicked (msg : List Nat)
deriving DecidableEq

/-- True exactly on the runtime-fault branch. -/
def Outcome.isPanicked : Outcome α → Bool
  | .panicked _ => true
  | _ => false

namespace Bridge

/-- State of the calling thread's last-error slot as read back by
`bridge_last_error`: a pointer (0 = null) and a byte length. -/
structure ErrSlot where
  ptr : Nat
  len : Nat
deriving DecidableEq

/-- ptrToString from src/bridge/loader_unix.go lines 289-294: a null
pointer or a zero length yields the empty string, otherwise the
`length` bytes at `ptr` are read. -/
def ptrToString (mem : Nat → Nat) (ptr length : Nat) : List Nat :=
  if ptr = 0 ∨ length = 0 then []
  else (List.range length).map fun i => mem (ptr + i)

/-- Bridge.getLastError from src/bridge/loader_unix.go lines 276-287:
a null pointer becomes the fixed "unknown error" message, otherwise
the slot's bytes are converted with ptrToString. -/
def getLastError (mem : Nat → Nat) (e : ErrSlot) : List Nat :=
  if e.ptr = 0 then strLit "unknown error"
  else ptrToString mem e.ptr e.len

/-- Engine reply for the entry points that write a (pointer, length)
string pair: `bridge_engine_version` and `bridge_capabilities`. -/
structure StrReply where
  status : Int
  ptr : Nat
  len : Nat
  err : ErrSlot

/-- Engine reply for the entry points that write a `uint64` handle:
`bridge_plan_compile` and `bridge_df_from_columns`. -/
structure HandleReply where
  status : Int
  handle : Nat
  err : ErrSlot

/-- Engine reply for the entry points that write an output byte buffer:
`bridge_plan_execute_simple` and `bridge_df_to_ipc`. -/
structure ExecReply where
  status : Int
  outPtr : Nat
  outLen : Nat
  err : ErrSlot

/-- Engine reply for the status-only entry points `bridge_df_print`,
`bridge_plan_execute_and_print` and `bridge_plan_collect_df`. -/
structure StatusReply where
  status : Int
  err : ErrSlot

/-- Bridge.EngineVersion from src/bridge/loader_unix.go lines 107-115. -/
def EngineVersion (mem : Nat → Nat) (r : StrReply) : Except (List Nat) (List Nat) :=
  if r.status ≠ 0 then .error (getLastError mem r.err)
  else .ok (ptrToString mem r.ptr r.len)

/-- Bridge.Capabilities from src/bridge/loader_unix.go lines 118-126. -/
def Capabilities (mem : Nat → Nat) (r : StrReply) : Except (List Nat) (List Nat) :=
  if r.status ≠ 0 then .error (getLastError mem r.err)
  else .ok (ptrToString mem r.ptr r.len)

/-- Bridge.CompilePlan from src/bridge/loader_unix.go lines 129-138.
The Go code takes the address `&planBytes[0]` before calling the
engine; on an empty slice this indexing faults with the Go runtime
index-out-of-range error, so the engine (`eng`, mapping the plan bytes
to its reply) is only reached on a non-empty slice. -/
def CompilePlan (mem : Nat → Nat) (eng : List Nat → HandleReply)
    (planBytes : List Nat) : Outcome Nat :=
  match planBytes with
  | [] => .panicked (strLit "runtime error: index out of range [0] with length 0")
  | _ :: _ =>
    let r := eng planBytes
    if r.status ≠ 0 then .err (getLastError mem r.err)
    else .ok r.handle

/-- Bridge.ExecuteSimple from src/bridge/loader_unix.go lines 146-178.
An empty input is passed to the engine as a null pointer with length 0
(no fault). On status 0 the engine-owned output buffer is copied byte
by byte into a fresh Go slice and then released; the second component
of the result is the list of `bridge_output_free(ptr, len)` calls
performed. -/
def ExecuteSimple (mem : Nat → Nat) (eng : List Nat → ExecReply)
    (inputBytes : List Nat) : Except (List Nat) (List Nat) × List (Nat × Nat) :=
  let r := eng inputBytes
  if r.status ≠ 0 then (.error (getLastError mem r.err), [])
  else (.ok ((List.range r.outLen).map fun i => mem (r.outPtr + i)),
        [(r.outPtr, r.outLen)])

/-- Bridge.ExecuteAndPrint from src/bridge/loader_unix.go lines 204-212. -/
def ExecuteAndPrint (mem : Nat → Nat) (r : StatusReply) : Except (List Nat) Unit :=
  if r.status ≠ 0 then .error (getLastError mem r.err)
  else .ok ()

/-- Bridge.CollectPlanDF from src/bridge/loader_unix.go lines 215-223:
the engine writes the resulting DataFrame handle. -/
def CollectPlanDF (mem : Nat → Nat) (r : HandleReply) : Except (List Nat) Nat :=
  if r.status ≠ 0 then .error (getLastError mem r.err)
  else .ok r.handle

/-- Bridge.CreateDataFrameFromColumns from src/bridge/loader_unix.go
lines 227-241: an empty input is rejected on the Go side before the
engine is reached. -/
def CreateDataFrameFromColumns (mem : Nat → Nat) (eng : List Nat → HandleReply)
    (jsonData : List Nat) : Except (List Nat) Nat :=
  if jsonData = [] then .error (strLit "jsonData is empty")
  else
    let r := eng jsonData
    if r.status ≠ 0 then .error (getLastError mem r.err)
    else .ok r.handle

/-- Bridge.DataFrameToIPC from src/bridge/loader_unix.go lines 244-260.
As in ExecuteSimple, the second component records the
`bridge_output_free` calls performed. -/
def DataFrameToIPC (mem : Nat → Nat) (r : ExecReply) :
    Except (List Nat) (List Nat) × List (Nat × Nat) :=
  if r.status ≠ 0 then (.error (getLastError mem r.err), [])
  else (.ok ((List.range r.outLen).map fun i => mem (r.outPtr + i)),
        [(r.outPtr, r.outLen)])

/-- Bridge.DataFramePrint from src/bridge/loader_unix.go lines 263-269. -/
def DataFramePrint (mem : Nat → Nat) (r : StatusReply) : Except (List Nat) Unit :=
  if r.status ≠ 0 then .error (getLastError mem r.err)
  else .ok ()

/-- One raw call into the loaded dynamic library issued while loading
the bridge. `bridge_abi_version` is the only non-fallible entry point;
all the others answer with a status and the last-error channel. -/
inductive LoadEvent where
  | callAbiVersion
  | callEngineVersion
  | callCapabilities
  | callPlanCompile
  | callPlanExecuteSimple
  | callPlanExecutePrint
  | callPlanCollectDF
  | callDfFromColumns
  | callDfToIPC
  | callDfPrint
deriving DecidableEq

/-- Whether a raw call is a fallible entry point (everything except
`bridge_abi_version`). -/
def LoadEvent.fallible : LoadEvent → Bool
  | .callAbiVersion => false
  | _ => true

/-- LoadBridge from src/bridge/loader_unix.go lines 80-88, starting
after the library has been linked and its symbols resolved (symbol
resolution does not call into the library): `bridge_abi_version` is
invoked once and, when it does not return 1, an error is returned and
no Bridge value is produced. The second component is the trace of raw
calls issued into the library. -/
def LoadBridge (abiVer : Nat) : Except (List Nat) Unit × List LoadEvent :=
  if abiVer ≠ 1 then
    (.error (strLit ("ABI version mismatch: expected 1, got " ++ toString abiVer)),
     [.callAbiVersion])
  else (.ok (), [.callAbiVersion])

end Bridge

namespace Engine

/-- Modelled from the spec: the engine's thread-scoped last-error
channel (the Rust side of the repository, which is not under src/;
src/bridge only declares `bridge_last_error` / `bridge_last_error_free`).
Per §4.2/§9: "a slot keyed by the calling thread's identity, written
just before a fallible entry point returns and read by a subsequent
call on the same thread". The state maps a thread id to the diagnostic
currently held for that thread (`none` when the thread's last fallible
call succeeded or it has made none). -/
def ErrChannel : Type := Nat → Option (List Nat)

/-- Modelled from the spec: one fallible entry-point call performed by
thread `t`; `diag` is the diagnostic it leaves in `t`'s slot (`some`
text on a non-zero status, `none` on success). -/
inductive ErrOp where
  | fallibleCall (t : Nat) (diag : Option (List Nat))

/-- Thread performing the call. -/
def ErrOp.thread : ErrOp → Nat
  | .fallibleCall t _ => t

/-- Modelled from the spec: effect of one fallible call on the
thread-scoped channel — only the calling thread's slot is written. -/
def errStep (s : ErrChannel) : ErrOp → ErrChannel
  | .fallibleCall t d => fun u => if u = t then d else s u

/-- Interleaved execution of a sequence of fallible calls (from any
mix of threads) against the channel. -/
def errRun (s : ErrChannel) (ops : List ErrOp) : ErrChannel :=
  ops.foldl errStep s

/-- Modelled from the spec: `last_error()` — thread `t` reads its own
slot. -/
def lastErrorRead (s : ErrChannel) (t : Nat) : Option (List Nat) := s t

end Engine

namespace Proto

/-- DataType enum of the Plan IR, as used by the expression builder
(src/unnamed/part_005 lines 8-24). -/
inductive DataType where
  | int64 | int32 | int16 | int8
  | uint64E | uint32E | uint16E | uint8E
  | float64 | float32 | boolType | utf8
  | date | datetime | timeType
deriving DecidableEq

/-- BinaryOperator enum of the Plan IR (comparisons, arithmetic with
modulo and power, boolean connectives and xor). -/
inductive BinaryOperator where
  | eqOp | neOp | ltOp | leOp | gtOp | geOp
  | addOp | subOp | mulOp | divOp
  | andOp | orOp | modOp | powOp | xorOp
deriving DecidableEq

/-- Literal message of the Plan IR: one typed value per instance.
Floating-point payloads are carried as their 64-bit patterns; no
claim computes with them. -/
inductive PLit where
  | intVal (v : Int)
  | floatVal (bits : Nat)
  | boolVal (b : Bool)
  | stringVal (s : String)
  | nullVal
deriving DecidableEq

/-- Expr message of the Plan IR: the tagged union of expression forms
built by the Go expression builder (src/unnamed/part_005): column
reference, typed literal, binary operator, alias, null test, boolean
negation, typed cast, wildcard. -/
inductive PExpr where
  | col (name : String)
  | lit (l : PLit)
  | binary (left : PExpr) (op : BinaryOperator) (right : PExpr)
  | alias (e : PExpr) (name : String)
  | isNull (e : PExpr)
  | notExpr (e : PExpr)
  | cast (e : PExpr) (dataType : DataType) (strict : Bool)
  | wildcard
deriving DecidableEq

mutual

/-- Node message of the Plan IR: a diagnostic id plus the `Kind`
oneof, which — as in the generated Go struct, where `Kind` is a
nil-able interface — may be unpopulated. -/
inductive PNode where
  | mk (id : Nat) (kind : Option NodeKind)

/-- The `Kind` oneof of a Node: at most one variant by construction,
mirroring the protobuf oneof. Children are owned inline. -/
inductive NodeKind where
  | memoryScan (columnNames : List String)
  | csvScan (path : String)
  | parquetScan (path : String)
  | filter (input : PNode) (predicate : PExpr)
  | project (input : PNode) (expressions : List PExpr)
  | withColumns (input : PNode) (expressions : List PExpr)
  | limit (input : PNode) (n : Nat)

end

/-- Diagnostic id of a node. -/
def PNode.id : PNode → Nat
  | .mk i _ => i

/-- The `Kind` oneof of a node. -/
def PNode.kind : PNode → Option NodeKind
  | .mk _ k => k

/-- Input child of a node's kind, when the variant has one. -/
def NodeKind.input? : NodeKind → Option PNode
  | .memoryScan _ => none
  | .csvScan _ => none
  | .parquetScan _ => none
  | .filter input _ => some input
  | .project input _ => some input
  | .withColumns input _ => some input
  | .limit input _ => some input

/-- Input child of a node, when present. -/
def PNode.inputChild (n : PNode) : Option PNode :=
  match n.kind with
  | none => none
  | some k => k.input?

mutual

/-- All node ids of a plan tree, root first, walking the single input
chain (no node variant has more than one child node). -/
def PNode.ids : PNode → List Nat
  | .mk i none => [i]
  | .mk i (some k) => i :: NodeKind.ids k

/-- Node ids below a kind. -/
def NodeKind.ids : NodeKind → List Nat
  | .memoryScan _ => []
  | .csvScan _ => []
  | .parquetScan _ => []
  | .filter input _ => input.ids
  | .project input _ => input.ids
  | .withColumns input _ => input.ids
  | .limit input _ => input.ids

end

/-- Plan message: a versioned tree with one root node
(`PlanVersion` plus `Root`). -/
structure Plan where
  planVersion : Nat
  root : PNode

end Proto

namespace Polars

open Proto

/-- polars.Expr (src/unnamed/part_005 lines 27-29): a wrapper around a
protobuf expression. -/
structure Expr where
  inner : PExpr
deriving DecidableEq

/-- Expr.toProto (src/unnamed/part_005 lines 266-268). -/
def Expr.toProto (e : Expr) : PExpr := e.inner

/-- Col (src/unnamed/part_005 lines 32-42). -/
def Col (name : String) : Expr := ⟨.col name⟩

/-- A Go `interface\x7b\x7d` value as passed to Lit: the dynamic types
the switch in Lit distinguishes, plus one arm standing for every other
dynamic type (described by its type name). Numeric payloads carry the
value (Go's `int`/`int64` conversions are value-preserving); float
payloads carry bit patterns. -/
inductive GoValue where
  | goInt (v : Int)
  | goInt64 (v : Int)
  | goFloat64 (bits : Nat)
  | goFloat32 (bits : Nat)
  | goBool (b : Bool)
  | goString (s : String)
  | goNil
  | goOther (typeName : String)
deriving DecidableEq

/-- Lit (src/unnamed/part_005 lines 65-111). `widenF32` is Go's
`float64(v)` widening conversion applied to a float32 bit pattern; the
theorems hold for every such conversion. Every unmatched dynamic type
falls into the default arm, which produces a string literal holding
the empty string. -/
def Lit (widenF32 : Nat → Nat) (value : GoValue) : Expr :=
  let l : PLit :=
    match value with
    | .goInt v => .intVal v
    | .goInt64 v => .intVal v
    | .goFloat64 bits => .floatVal bits
    | .goFloat32 bits => .floatVal (widenF32 bits)
    | .goBool b => .boolVal b
    | .goString s => .stringVal s
    | .goNil => .nullVal
    | .goOther _ => .stringVal ""
  ⟨.lit l⟩

/-- polars.DataFrame (src/polars/dataframe_handle.go lines 12-15): the
engine-side handle (0 once freed) and whether the bridge pointer is
non-nil. -/
structure DataFrame where
  handle : Nat
  brgValid : Bool
deriving DecidableEq

/-- One call into the engine made by a DataFrame method. -/
inductive EngineCall where
  | dfFree (handle : Nat)
  | dfToIPC (handle : Nat)
  | dfPrint (handle : Nat)
deriving DecidableEq

/-- DataFrame.Free (src/polars/dataframe_handle.go lines 28-35):
when the handle is already 0 or the bridge is nil, return without
touching the engine; otherwise call `bridge_df_free` once and zero
the handle. Returns the updated receiver and the engine calls made. -/
def DataFrame.Free (df : DataFrame) : DataFrame × List EngineCall :=
  if df.handle = 0 ∨ df.brgValid = false then (df, [])
  else ({ handle := 0, brgValid := df.brgValid }, [.dfFree df.handle])

/-- DataFrame.Rows (src/polars/dataframe_handle.go lines 38-47): guard
against a freed handle or nil bridge, then export via
Bridge.DataFrameToIPC and parse the IPC bytes (`parse` stands for
parseArrowIPC). `eng` gives the engine's reply to `bridge_df_to_ipc`
for a handle. The second component is the trace of engine calls. -/
def DataFrame.Rows (mem : Nat → Nat) (eng : Nat → Bridge.ExecReply)
    (parse : List Nat → Except (List Nat) (List (List Nat)))
    (df : DataFrame) :
    Except (List Nat) (List (List Nat)) × List EngineCall :=
  if df.handle = 0 ∨ df.brgValid = false then
    (.error (strLit "dataframe is nil"), [])
  else
    match Bridge.DataFrameToIPC mem (eng df.handle) with
    | (.error m, _) =>
      (.error (strLit "failed to export dataframe: " ++ m), [.dfToIPC df.handle])
    | (.ok ipcBytes, _) => (parse ipcBytes, [.dfToIPC df.handle])

/-- DataFrame.Print (src/polars/dataframe_handle.go lines 50-55):
guard against a freed handle or nil bridge, then call
Bridge.DataFramePrint. -/
def DataFrame.Print (mem : Nat → Nat) (eng : Nat → Bridge.StatusReply)
    (df : DataFrame) : Except (List Nat) Unit × List EngineCall :=
  if df.handle = 0 ∨ df.brgValid = false then
    (.error (strLit "dataframe is nil"), [])
  else (Bridge.DataFramePrint mem (eng df.handle), [.dfPrint df.handle])

/-- The uint32 modulus for the LazyFrame node-id counter. -/
def U32 : Nat := 4294967296

/-- polars.LazyFrame (src/polars/dataframe.go lines 13-16 together
with the inputDF field of src/unnamed/part_009 lines 12-16): the
current root node, the uint32 node-id counter, and the optional
chained input DataFrame. -/
structure LazyFrame where
  root : PNode
  nodeID : Nat
  inputDF : Option DataFrame

/-- NewLazyFrame (src/polars/dataframe.go lines 19-31): a memory-scan
root with id 1 and counter 1. The `data` argument is unused by the
constructor exactly as in the source. -/
def NewLazyFrame (data : List (List (String × GoValue))) : LazyFrame :=
  let _ := data
  { root := .mk 1 (some (.memoryScan [])), nodeID := 1, inputDF := none }

/-- LazyFrame.nextNodeID (src/polars/dataframe.go lines 34-37):
increments the receiver's uint32 counter in place and returns it.
Returns the updated receiver paired with the fresh id. -/
def LazyFrame.nextNodeID (lf : LazyFrame) : LazyFrame × Nat :=
  let n := (lf.nodeID + 1) % U32
  ({ lf with nodeID := n }, n)

/-- LazyFrame.Filter (src/polars/dataframe.go lines 40-55): builds a
Filter node over the receiver's root and returns a new frame; the
receiver is mutated only through nextNodeID. Result: (receiver after
the call, returned frame). -/
def LazyFrame.Filter (lf : LazyFrame) (predicate : Expr) : LazyFrame × LazyFrame :=
  let p := lf.nextNodeID
  let newNode : PNode := .mk p.2 (some (.filter p.1.root predicate.toProto))
  (p.1, { root := newNode, nodeID := p.1.nodeID, inputDF := p.1.inputDF })

/-- LazyFrame.Select (src/polars/dataframe.go lines 58-78): converts
the expressions in order and builds a Project node over the
receiver's root. -/
def LazyFrame.Select (lf : LazyFrame) (exprs : List Expr) : LazyFrame × LazyFrame :=
  let protoExprs := exprs.map Expr.toProto
  let p := lf.nextNodeID
  let newNode : PNode := .mk p.2 (some (.project p.1.root protoExprs))
  (p.1, { root := newNode, nodeID := p.1.nodeID, inputDF := p.1.inputDF })

/-- LazyFrame.WithColumns (src/polars/dataframe.go lines 81-101). -/
def LazyFrame.WithColumns (lf : LazyFrame) (exprs : List Expr) : LazyFrame × LazyFrame :=
  let protoExprs := exprs.map Expr.toProto
  let p := lf.nextNodeID
  let newNode : PNode := .mk p.2 (some (.withColumns p.1.root protoExprs))
  (p.1, { root := newNode, nodeID := p.1.nodeID, inputDF := p.1.inputDF })

/-- LazyFrame.Limit (src/polars/dataframe.go lines 104-119). -/
def LazyFrame.Limit (lf : LazyFrame) (n : Nat) : LazyFrame × LazyFrame :=
  let p := lf.nextNodeID
  let newNode : PNode := .mk p.2 (some (.limit p.1.root n))
  (p.1, { root := newNode, nodeID := p.1.nodeID, inputDF := p.1.inputDF })

/-- The Plan value built by LazyFrame.Collect before marshalling
(src/polars/dataframe.go lines 124-127): plan_version 1, the frame's
root as the single root node. -/
def LazyFrame.collectPlan (lf : LazyFrame) : Plan :=
  { planVersion := 1, root := lf.root }

/-- LazyFrame.Collect (src/polars/dataframe.go lines 122-160): build
the Plan, marshal it (`marshal` stands for proto.Marshal), compile it
through Bridge.CompilePlan, marshal the input rows (`inputJSON` is the
json.Marshal result), execute through Bridge.ExecuteSimple and parse
the NDJSON output (`parseND` stands for parseNDJSON). Error wrapping
follows the source's fmt.Errorf chains. -/
def LazyFrame.Collect (mem : Nat → Nat)
    (marshal : Plan → Except (List Nat) (List Nat))
    (compileEng : List Nat → Bridge.HandleReply)
    (execEng : Nat → List Nat → Bridge.ExecReply)
    (inputJSON : Except (List Nat) (List Nat))
    (parseND : List Nat → Except (List Nat) (List (List Nat)))
    (lf : LazyFrame) : Outcome (List (List Nat)) :=
  match marshal lf.collectPlan with
  | .error e => .err (strLit "failed to marshal plan: " ++ e)
  | .ok planBytes =>
    match Bridge.CompilePlan mem compileEng planBytes with
    | .panicked m => .panicked m
    | .err m => .err (strLit "failed to compile plan: " ++ m)
    | .ok handle =>
      match inputJSON with
      | .error e => .err (strLit "failed to marshal input: " ++ e)
      | .ok inp =>
        match (Bridge.ExecuteSimple mem (execEng handle) inp).1 with
        | .error m => .err (strLit "failed to execute plan: " ++ m)
        | .ok out =>
          match parseND out with
          | .error m => .err (strLit "failed to parse output: " ++ m)
          | .ok rows => .ok rows

/-- One builder operation in a chain, with its arguments. -/
inductive BuilderOp where
  | filterOp (p : Expr)
  | selectOp (es : List Expr)
  | withColumnsOp (es : List Expr)
  | limitOp (n : Nat)

/-- Apply one builder operation to a frame and continue the chain with
the returned frame (the second component of each method). -/
def applyOp (lf : LazyFrame) (op : BuilderOp) : LazyFrame :=
  match op with
  | .filterOp p => (lf.Filter p).2
  | .selectOp es => (lf.Select es).2
  | .withColumnsOp es => (lf.WithColumns es).2
  | .limitOp n => (lf.Limit n).2

/-- A single chain of builder operations starting from a frame. -/
def applyOps (lf : LazyFrame) (ops : List BuilderOp) : LazyFrame :=
  ops.foldl applyOp lf

end Polars

namespace Polars

open Proto

/-- The node ids, root first, of the plan tree after `k` chained
builder operations: `(1 + k) % 2 ^ 32` down to `1`. -/
def idsFormula (k : Nat) : List Nat :=
  ((List.range (k + 1)).map fun i => (1 + i) % U32).reverse

/-- Invariant of a frame reached by `k` chained builder operations
from a fresh frame: counter and root id are the uint32 value `1 + k`,
and the tree's ids follow `idsFormula`. -/
def ChainInv (lf : LazyFrame) (k : Nat) : Prop :=
  lf.nodeID = (1 + k) % U32 ∧ lf.root.id = (1 + k) % U32 ∧
    lf.root.ids = idsFormula k

theorem idsFormula_succ (k : Nat) :
    idsFormula (k + 1) = ((1 + (k + 1)) % U32) :: idsFormula k := by
  simp [idsFormula, List.range_succ]

theorem applyOp_nodeID (lf : LazyFrame) (op : BuilderOp) :
    (applyOp lf op).nodeID = (lf.nodeID + 1) % U32 := by
  cases op <;> rfl

theorem applyOp_root_id (lf : LazyFrame) (op : BuilderOp) :
    (applyOp lf op).root.id = (lf.nodeID + 1) % U32 := by
  cases op <;> rfl

theorem applyOp_root_ids (lf : LazyFrame) (op : BuilderOp) :
    (applyOp lf op).root.ids = ((lf.nodeID + 1) % U32) :: lf.root.ids := by
  cases op <;>
    simp [applyOp, LazyFrame.Filter, LazyFrame.Select, LazyFrame.WithColumns,
      LazyFrame.Limit, LazyFrame.nextNodeID, PNode.ids, NodeKind.ids]

theorem chainInv_step {lf : LazyFrame} {k : Nat} (h : ChainInv lf k)
    (op : BuilderOp) : ChainInv (applyOp lf op) (k + 1) := by
  obtain ⟨h1, _h2, h3⟩ := h
  have hid : (lf.nodeID + 1) % U32 = (1 + (k + 1)) % U32 := by
    rw [h1, Nat.mod_add_mod]
    congr 1
  refine ⟨?_, ?_, ?_⟩
  · rw [applyOp_nodeID, hid]
  · rw [applyOp_root_id, hid]
  · rw [applyOp_root_ids, hid, h3, idsFormula_succ]

theorem chainInv_run (ops : List BuilderOp) :
    ∀ lf k, ChainInv lf k → ChainInv (applyOps lf ops) (k + ops.length) := by
  induction ops with
  | nil => intro lf k h; simpa [applyOps] using h
  | cons op ops ih =>
    intro lf k h
    have := ih (applyOp lf op) (k + 1) (chainInv_step h op)
    have hl : k + (op :: ops).length = k + 1 + ops.length := by
      simp [List.length_cons]; omega
    rw [hl]
    simpa [applyOps] using this

theorem chainInv_init (d : List (List (String × GoValue))) :
    ChainInv (NewLazyFrame d) 0 := by
  refine ⟨?_, ?_, ?_⟩ <;>
    simp [NewLazyFrame, idsFormula, PNode.ids, NodeKind.ids, PNode.id, U32,
      List.range_succ]

theorem u32_mod_inj {a b : Nat} (ha1 : 1 ≤ a) (ha2 : a ≤ U32)
    (hb1 : 1 ≤ b) (hb2 : b ≤ U32) (h : a % U32 = b % U32) : a = b := by
  rcases Nat.lt_or_ge a U32 with ha | ha
  · rcases Nat.lt_or_ge b U32 with hb | hb
    · rwa [Nat.mod_eq_of_lt ha, Nat.mod_eq_of_lt hb] at h
    · have hbe : b = U32 := le_antisymm hb2 hb
      rw [Nat.mod_eq_of_lt ha, hbe, Nat.mod_self] at h
      omega
  · have hae : a = U32 := le_antisymm ha2 ha
    rcases Nat.lt_or_ge b U32 with hb | hb
    · rw [hae, Nat.mod_self, Nat.mod_eq_of_lt hb] at h
      omega
    · have hbe : b = U32 := le_antisymm hb2 hb
      rw [hae, hbe]

theorem idsFormula_nodup {k : Nat} (hk : k + 1 ≤ U32) :
    (idsFormula k).Nodup := by
  rw [idsFormula, List.nodup_reverse]
  refine List.Nodup.map_on ?_ (List.nodup_range _)
  intro x hx y hy hxy
  rw [List.mem_range] at hx hy
  have := u32_mod_inj (a := 1 + x) (b := 1 + y)
    (by omega) (by omega) (by omega) (by omega) hxy
  omega

theorem idsFormula_not_nodup : ¬ (idsFormula U32).Nodup := by
  intro h
  rw [idsFormula, List.nodup_reverse] at h
  have hinj := List.inj_on_of_nodup_map h (x := 0) (y := U32)
  have h0 : 0 ∈ List.range (U32 + 1) := by
    rw [List.mem_range]; omega
  have hU : U32 ∈ List.range (U32 + 1) := by
    rw [List.mem_range]; omega
  have heq : (1 + 0) % U32 = (1 + U32) % U32 := by
    rw [Nat.add_mod_right]
  have := hinj h0 hU heq
  have : U32 ≠ 0 := by decide
  omega

end Polars

/-- C1 (amended): for every fallible Bridge entry point (EngineVersion,
Capabilities, CompilePlan, ExecuteSimple, CollectPlanDF,
CreateDataFrameFromColumns, DataFrameToIPC, DataFramePrint,
ExecuteAndPrint), whenever the engine returns a non-zero status the Go
wrapper returns a non-nil error whose message is getLastError's
result; that message is non-empty whenever the last-error slot holds a
null pointer (the fixed "unknown error" text) or a non-zero length,
but for a non-null pointer with length zero the error's message is the
empty string. -/
theorem claimC1_theorem :
    (∀ mem e, e.ptr = 0 ∨ e.len ≠ 0 → Bridge.getLastError mem e ≠ []) ∧
    (∀ mem r, r.status ≠ 0 →
      Bridge.EngineVersion mem r = .error (Bridge.getLastError mem r.err)) ∧
    (∀ mem r, r.status ≠ 0 →
      Bridge.Capabilities mem r = .error (Bridge.getLastError mem r.err)) ∧
    (∀ mem eng bs, bs ≠ [] → (eng bs).status ≠ 0 →
      Bridge.CompilePlan mem eng bs = .err (Bridge.getLastError mem (eng bs).err)) ∧
    (∀ mem eng inp, (eng inp).status ≠ 0 →
      (Bridge.ExecuteSimple mem eng inp).1 = .error (Bridge.getLastError mem (eng inp).err)) ∧
    (∀ mem r, r.status ≠ 0 →
      Bridge.CollectPlanDF mem r = .error (Bridge.getLastError mem r.err)) ∧
    (∀ mem eng js, js ≠ [] → (eng js).status ≠ 0 →
      Bridge.CreateDataFrameFromColumns mem eng js =
        .error (Bridge.getLastError mem (eng js).err)) ∧
    (∀ mem r, r.status ≠ 0 →
      (Bridge.DataFrameToIPC mem r).1 = .error (Bridge.getLastError mem r.err)) ∧
    (∀ mem r, r.status ≠ 0 →
      Bridge.DataFramePrint mem r = .error (Bridge.getLastError mem r.err)) ∧
    (∀ mem r, r.status ≠ 0 →
      Bridge.ExecuteAndPrint mem r = .error (Bridge.getLastError mem r.err)) := by
  refine ⟨?_, ?_, ?_, ?_, ?_, ?_, ?_, ?_, ?_, ?_⟩
  · intro mem e h
    rcases h with h | h
    · simp [Bridge.getLastError, h]
      decide
    · by_cases hp : e.ptr = 0
      · simp [Bridge.getLastError, hp]
        decide
      · simp [Bridge.getLastError, Bridge.ptrToString, hp, h]
  · intro mem r h; simp [Bridge.EngineVersion, h]
  · intro mem r h; simp [Bridge.Capabilities, h]
  · intro mem eng bs hbs h
    cases bs with
    | nil => exact absurd rfl hbs
    | cons a t => simp [Bridge.CompilePlan, h]
  · intro mem eng inp h; simp [Bridge.ExecuteSimple, h]
  · intro mem r h; simp [Bridge.CollectPlanDF, h]
  · intro mem eng js hjs h
    simp [Bridge.CreateDataFrameFromColumns, hjs, h]
  · intro mem r h; simp [Bridge.DataFrameToIPC, h]
  · intro mem r h; simp [Bridge.DataFramePrint, h]
  · intro mem r h; simp [Bridge.ExecuteAndPrint, h]

/-- C1 counterexample: an engine failure whose last-error slot holds a
non-null pointer with length zero is surfaced by the wrapper as an
error whose message is empty, refuting the non-empty-message claim for
that (pointer, length) pair. -/
theorem claimC1_counterexample :
    Bridge.getLastError (fun _ => 65) ⟨1, 0⟩ = [] ∧
    Bridge.ExecuteAndPrint (fun _ => 65) ⟨1, ⟨1, 0⟩⟩ = .error [] := by
  constructor <;> rfl

/-- C1 witness: at a concrete failing reply with a null error pointer,
EngineVersion surfaces the non-empty "unknown error" diagnostic. -/
theorem claimC1_witness :
    Bridge.EngineVersion (fun _ => 65) ⟨1, 0, 0, ⟨0, 0⟩⟩ =
      .error (Bridge.getLastError (fun _ => 65) ⟨0, 0⟩) ∧
    Bridge.getLastError (fun _ => 65) ⟨0, 0⟩ ≠ [] :=
  ⟨claimC1_theorem.2.1 (fun _ => 65) ⟨1, 0, 0, ⟨0, 0⟩⟩ (by decide),
   claimC1_theorem.1 (fun _ => 65) ⟨0, 0⟩ (Or.inl rfl)⟩

/-- C2 (amended): for every non-empty byte slice planBytes, CompilePlan
either returns a handle or returns an error and never faults; for the
empty slice the Go wrapper faults (index out of range at
planBytes[0]) before reaching the engine, instead of surfacing a
decode error. -/
theorem claimC2_theorem :
    ∀ mem eng bs, bs ≠ [] →
      (Bridge.CompilePlan mem eng bs).isPanicked = false ∧
      (Bridge.CompilePlan mem eng bs = .ok (eng bs).handle ∨
        Bridge.CompilePlan mem eng bs = .err (Bridge.getLastError mem (eng bs).err)) := by
  intro mem eng bs hbs
  cases bs with
  | nil => exact absurd rfl hbs
  | cons a t =>
    by_cases h : (eng (a :: t)).status ≠ 0
    · constructor
      · simp [Bridge.CompilePlan, h, Outcome.isPanicked]
      · right; simp [Bridge.CompilePlan, h]
    · constructor
      · simp [Bridge.CompilePlan, h, Outcome.isPanicked]
      · left; simp [Bridge.CompilePlan, h]

/-- C2 counterexample: on the empty slice CompilePlan faults with the
Go runtime index-out-of-range error before reaching the engine (here
an engine that would answer status 0 with handle 7), so it neither
returns a handle nor an error. -/
theorem claimC2_counterexample :
    Bridge.CompilePlan (fun _ => 0) (fun _ => ⟨0, 7, ⟨0, 0⟩⟩) [] =
      .panicked (strLit "runtime error: index out of range [0] with length 0") := by
  rfl

/-- C2 witness: a concrete non-empty slice never faults. -/
theorem claimC2_witness :
    (Bridge.CompilePlan (fun _ => 0) (fun _ => ⟨0, 7, ⟨0, 0⟩⟩) [1]).isPanicked = false :=
  (claimC2_theorem (fun _ => 0) (fun _ => ⟨0, 7, ⟨0, 0⟩⟩) [1] (by decide)).1

/-- C3: after the first DataFrame.Free on a live handle, the handle is
zeroed having called the engine's dfFree once; a second Free is a
no-op issuing no engine call, and every subsequent Rows or Print call
returns the "dataframe is nil" error without invoking the engine. -/
theorem claimC3_theorem :
    ∀ df : Polars.DataFrame, df.handle ≠ 0 → df.brgValid = true →
      df.Free.2 = [.dfFree df.handle] ∧
      df.Free.1.Free = (df.Free.1, []) ∧
      (∀ mem eng parse,
        df.Free.1.Rows mem eng parse = (.error (strLit "dataframe is nil"), [])) ∧
      (∀ mem eng,
        df.Free.1.Print mem eng = (.error (strLit "dataframe is nil"), [])) := by
  intro df h1 h2
  have hfree : df.Free = (⟨0, df.brgValid⟩, [.dfFree df.handle]) := by
    simp [Polars.DataFrame.Free, h1, h2]
  refine ⟨by rw [hfree], ?_, ?_, ?_⟩
  · rw [hfree]
    simp [Polars.DataFrame.Free]
  · intro mem eng parse
    rw [hfree]
    simp [Polars.DataFrame.Rows]
  · intro mem eng
    rw [hfree]
    simp [Polars.DataFrame.Print]

/-- C3 witness: at handle 5 with a valid bridge, the first Free issues
exactly one dfFree call and a subsequent Rows on the freed frame
errors with no engine call. -/
theorem claimC3_witness :
    (Polars.DataFrame.mk 5 true).Free.2 = [.dfFree 5] ∧
    (Polars.DataFrame.mk 5 true).Free.1.Rows (fun _ => 0)
        (fun _ => ⟨0, 0, 0, ⟨0, 0⟩⟩) (fun _ => .ok []) =
      (.error (strLit "dataframe is nil"), []) :=
  ⟨(claimC3_theorem ⟨5, true⟩ (by decide) rfl).1,
   (claimC3_theorem ⟨5, true⟩ (by decide) rfl).2.2.1 _ _ _⟩

/-- C4: for ExecuteSimple and DataFrameToIPC, on status 0 the
engine-owned output buffer is copied into a fresh slice (the returned
list reads the buffer's bytes out of engine memory) and outputFree is
invoked exactly once on exactly that buffer; on a non-zero status the
outputFree trace is empty, so no buffer ownership transfer occurs on
the error path. -/
theorem claimC4_theorem :
    (∀ mem eng inp, (eng inp).status = 0 →
      Bridge.ExecuteSimple mem eng inp =
        (.ok ((List.range (eng inp).outLen).map fun i => mem ((eng inp).outPtr + i)),
         [((eng inp).outPtr, (eng inp).outLen)])) ∧
    (∀ mem eng inp, (eng inp).status ≠ 0 →
      (Bridge.ExecuteSimple mem eng inp).2 = []) ∧
    (∀ mem r, r.status = 0 →
      Bridge.DataFrameToIPC mem r =
        (.ok ((List.range r.outLen).map fun i => mem (r.outPtr + i)),
         [(r.outPtr, r.outLen)])) ∧
    (∀ mem r, r.status ≠ 0 → (Bridge.DataFrameToIPC mem r).2 = []) := by
  refine ⟨?_, ?_, ?_, ?_⟩
  · intro mem eng inp h; simp [Bridge.ExecuteSimple, h]
  · intro mem eng inp h; simp [Bridge.ExecuteSimple, h]
  · intro mem r h; simp [Bridge.DataFrameToIPC, h]
  · intro mem r h; simp [Bridge.DataFrameToIPC, h]

/-- C4 witness: a concrete successful execution copies the two bytes
at addresses 10 and 11 and frees the buffer (10, 2) exactly once, and
a concrete failing export frees nothing. -/
theorem claimC4_witness :
    Bridge.ExecuteSimple (fun a => a) (fun _ => ⟨0, 10, 2, ⟨0, 0⟩⟩) [] =
      (.ok ((List.range 2).map fun i => (fun a => a) (10 + i)), [(10, 2)]) ∧
    (Bridge.DataFrameToIPC (fun a => a) ⟨1, 10, 2, ⟨0, 0⟩⟩).2 = [] :=
  ⟨claimC4_theorem.1 (fun a => a) (fun _ => ⟨0, 10, 2, ⟨0, 0⟩⟩) [] rfl,
   claimC4_theorem.2.2.2 (fun a => a) ⟨1, 10, 2, ⟨0, 0⟩⟩ (by decide)⟩

/-- C5: Select builds a Project node whose expressions are exactly the
protobuf forms of the given expressions in order, with the receiver's
current root as the node's input; and the Plan built by Collect always
has plan_version 1 with the frame's final root as its single root
node. -/
theorem claimC5_theorem :
    (∀ lf es, (Polars.LazyFrame.Select lf es).2.root =
      .mk ((lf.nodeID + 1) % Polars.U32)
        (some (.project lf.root (es.map Polars.Expr.toProto)))) ∧
    (∀ lf : Polars.LazyFrame,
      lf.collectPlan = { planVersion := 1, root := lf.root }) :=
  ⟨fun _ _ => rfl, fun _ => rfl⟩

/-- C6: whenever the loaded library's abi_version is not 1, LoadBridge
returns the mismatch error and no Bridge value, and the only raw call
it has issued into the library is the non-fallible abi_version probe —
no fallible entry point is invoked. -/
theorem claimC6_theorem :
    ∀ v : Nat, v ≠ 1 →
      Bridge.LoadBridge v =
        (.error (strLit ("ABI version mismatch: expected 1, got " ++ toString v)),
         [.callAbiVersion]) ∧
      ∀ ev ∈ (Bridge.LoadBridge v).2, ev.fallible = false := by
  intro v h
  constructor
  · simp [Bridge.LoadBridge, h]
  · intro ev hev
    simp [Bridge.LoadBridge, h] at hev
    subst hev
    rfl

/-- C6 witness: a library reporting abi_version 2 is rejected after
the single non-fallible probe. -/
theorem claimC6_witness :
    Bridge.LoadBridge 2 =
      (.error (strLit ("ABI version mismatch: expected 1, got " ++ toString 2)),
       [.callAbiVersion]) :=
  (claimC6_theorem 2 (by decide)).1

/-- C7 (amended): every node created by the LazyFrame builder carries
exactly one populated Kind variant, and each newly created node
receives an id one greater than the previous node's id reduced modulo
2 ^ 32 (the counter is a Go uint32), so in any single chain of fewer
than 2 ^ 32 builder operations all node ids in the resulting plan tree
are pairwise distinct. -/
theorem claimC7_theorem :
    (∀ d, (Polars.NewLazyFrame d).root = .mk 1 (some (.memoryScan []))) ∧
    (∀ lf p, (Polars.LazyFrame.Filter lf p).2.root =
      .mk ((lf.nodeID + 1) % Polars.U32) (some (.filter lf.root p.toProto))) ∧
    (∀ lf es, (Polars.LazyFrame.Select lf es).2.root =
      .mk ((lf.nodeID + 1) % Polars.U32)
        (some (.project lf.root (es.map Polars.Expr.toProto)))) ∧
    (∀ lf es, (Polars.LazyFrame.WithColumns lf es).2.root =
      .mk ((lf.nodeID + 1) % Polars.U32)
        (some (.withColumns lf.root (es.map Polars.Expr.toProto)))) ∧
    (∀ lf n, (Polars.LazyFrame.Limit lf n).2.root =
      .mk ((lf.nodeID + 1) % Polars.U32) (some (.limit lf.root n))) ∧
    (∀ d ops, ops.length < Polars.U32 →
      ((Polars.applyOps (Polars.NewLazyFrame d) ops).root.ids).Nodup) := by
  refine ⟨fun _ => rfl, fun _ _ => rfl, fun _ _ => rfl, fun _ _ => rfl,
    fun _ _ => rfl, ?_⟩
  intro d ops h
  have hinv := Polars.chainInv_run ops (Polars.NewLazyFrame d) 0
    (Polars.chainInv_init d)
  rw [Nat.zero_add] at hinv
  rw [hinv.2.2]
  exact Polars.idsFormula_nodup (by omega)

/-- C7 counterexample: a single chain of exactly 2 ^ 32 builder
operations wraps the uint32 node-id counter, and the resulting plan
tree contains the id 1 twice — the node ids are not pairwise distinct,
refuting the claim for unbounded chains. -/
theorem claimC7_counterexample :
    ¬ ((Polars.applyOps (Polars.NewLazyFrame [])
        (List.replicate Polars.U32 (.limitOp 1))).root.ids).Nodup := by
  have hinv := Polars.chainInv_run (List.replicate Polars.U32 (.limitOp 1))
    (Polars.NewLazyFrame []) 0 (Polars.chainInv_init [])
  rw [Nat.zero_add, List.length_replicate] at hinv
  rw [hinv.2.2]
  exact Polars.idsFormula_not_nodup

/-- C7 witness: a concrete one-operation chain has pairwise distinct
node ids. -/
theorem claimC7_witness :
    ((Polars.applyOps (Polars.NewLazyFrame []) [.limitOp 1]).root.ids).Nodup :=
  claimC7_theorem.2.2.2.2.2 [] [.limitOp 1] (by norm_num [Polars.U32])

/-- Helper: the channel value a thread eventually reads depends only
on that thread's own slot in the initial state. -/
theorem Engine.errRun_agree (ops : List Engine.ErrOp) :
    ∀ (s s' : Engine.ErrChannel) (t : Nat), s t = s' t →
      Engine.errRun s ops t = Engine.errRun s' ops t := by
  induction ops with
  | nil =>
    intro s s' t h
    simpa [Engine.errRun] using h
  | cons op ops ih =>
    intro s s' t h
    show Engine.errRun (Engine.errStep s op) ops t =
      Engine.errRun (Engine.errStep s' op) ops t
    apply ih
    cases op with
    | fallibleCall u d =>
      by_cases hu : t = u
      · simp [Engine.errStep, hu]
      · simp [Engine.errStep, hu, h]

/-- C8: in the spec-modelled thread-scoped last-error channel, the
diagnostic a thread reads after any interleaving of fallible calls is
determined solely by that thread's own calls (the interleaved calls of
other threads are invisible to it); a call by a different thread never
changes what a thread observes, and a thread's own fallible call sets
exactly its observed diagnostic, which then remains valid until that
thread's next fallible call. -/
theorem claimC8_theorem :
    (∀ (s : Engine.ErrChannel) (ops : List Engine.ErrOp) (t : Nat),
      Engine.lastErrorRead (Engine.errRun s ops) t =
        Engine.lastErrorRead
          (Engine.errRun s (ops.filter fun op => op.thread == t)) t) ∧
    (∀ (s : Engine.ErrChannel) (t u : Nat) (d : Option (List Nat)), u ≠ t →
      Engine.lastErrorRead (Engine.errStep s (.fallibleCall u d)) t =
        Engine.lastErrorRead s t) ∧
    (∀ (s : Engine.ErrChannel) (t : Nat) (d : Option (List Nat)),
      Engine.lastErrorRead (Engine.errStep s (.fallibleCall t d)) t = d) := by
  refine ⟨?_, ?_, ?_⟩
  · intro s ops t
    induction ops generalizing s with
    | nil => rfl
    | cons op ops ih =>
      cases op with
      | fallibleCall u d =>
        have hstep : Engine.errRun s (Engine.ErrOp.fallibleCall u d :: ops) =
            Engine.errRun (Engine.errStep s (.fallibleCall u d)) ops := rfl
        by_cases hu : u = t
        · have hfil : List.filter (fun op => op.thread == t)
              (Engine.ErrOp.fallibleCall u d :: ops) =
              Engine.ErrOp.fallibleCall u d ::
                List.filter (fun op => op.thread == t) ops := by
            simp [List.filter_cons, Engine.ErrOp.thread, hu]
          rw [hfil, hstep]
          exact ih (Engine.errStep s (.fallibleCall u d))
        · have hfil : List.filter (fun op => op.thread == t)
              (Engine.ErrOp.fallibleCall u d :: ops) =
              List.filter (fun op => op.thread == t) ops := by
            simp [List.filter_cons, Engine.ErrOp.thread, hu]
          rw [hfil, hstep, ih (Engine.errStep s (.fallibleCall u d))]
          have hagree : Engine.errStep s (.fallibleCall u d) t = s t := by
            show (if t = u then d else s t) = s t
            rw [if_neg (fun h' => hu h'.symm)]
          exact Engine.errRun_agree _ _ _ _ hagree
  · intro s t u d h
    show (if t = u then d else s t) = s t
    rw [if_neg (fun h' => h h'.symm)]
  · intro s t d
    show (if t = t then d else s t) = d
    rw [if_pos rfl]

/-- C8 witness: a fallible call by thread 1 leaves thread 0's observed
diagnostic untouched. -/
theorem claimC8_witness :
    Engine.lastErrorRead
        (Engine.errStep (fun _ => none) (.fallibleCall 1 (some (strLit "boom")))) 0 =
      Engine.lastErrorRead (fun _ => none) 0 :=
  claimC8_theorem.2.1 (fun _ => none) 0 1 (some (strLit "boom")) (by decide)

/-- C9: Lit is total over Go values — each of the dynamic types int,
int64, float64, float32, bool, string and nil produces the
corresponding typed literal variant (with float32 widened by Go's
float64 conversion), and every other dynamic type silently produces a
string literal holding the empty string, with no error and no fault.
`widenF32` ranges over every possible widening map. -/
theorem claimC9_theorem :
    ∀ widenF32 : Nat → Nat,
      (∀ v, Polars.Lit widenF32 (.goInt v) = ⟨.lit (.intVal v)⟩) ∧
      (∀ v, Polars.Lit widenF32 (.goInt64 v) = ⟨.lit (.intVal v)⟩) ∧
      (∀ b, Polars.Lit widenF32 (.goFloat64 b) = ⟨.lit (.floatVal b)⟩) ∧
      (∀ b, Polars.Lit widenF32 (.goFloat32 b) = ⟨.lit (.floatVal (widenF32 b))⟩) ∧
      (∀ b, Polars.Lit widenF32 (.goBool b) = ⟨.lit (.boolVal b)⟩) ∧
      (∀ s, Polars.Lit widenF32 (.goString s) = ⟨.lit (.stringVal s)⟩) ∧
      (Polars.Lit widenF32 .goNil = ⟨.lit .nullVal⟩) ∧
      (∀ t, Polars.Lit widenF32 (.goOther t) = ⟨.lit (.stringVal "")⟩) :=
  fun _ => ⟨fun _ => rfl, fun _ => rfl, fun _ => rfl, fun _ => rfl,
    fun _ => rfl, fun _ => rfl, rfl, fun _ => rfl⟩

/-- C10: no builder operation mutates the receiver's plan tree — after
Filter, Select, WithColumns or Limit the receiver is unchanged except
for its nodeID counter (uint32 increment), and the returned frame's
root node holds the receiver's original root as its Input child. -/
theorem claimC10_theorem :
    ∀ lf : Polars.LazyFrame,
      (∀ p, (lf.Filter p).1 = { lf with nodeID := (lf.nodeID + 1) % Polars.U32 } ∧
        (lf.Filter p).2.root.inputChild = some lf.root) ∧
      (∀ es, (lf.Select es).1 = { lf with nodeID := (lf.nodeID + 1) % Polars.U32 } ∧
        (lf.Select es).2.root.inputChild = some lf.root) ∧
      (∀ es, (lf.WithColumns es).1 =
          { lf with nodeID := (lf.nodeID + 1) % Polars.U32 } ∧
        (lf.WithColumns es).2.root.inputChild = some lf.root) ∧
      (∀ n, (lf.Limit n).1 = { lf with nodeID := (lf.nodeID + 1) % Polars.U32 } ∧
        (lf.Limit n).2.root.inputChild = some lf.root) :=
  fun _ => ⟨fun _ => ⟨rfl, rfl⟩, fun _ => ⟨rfl, rfl⟩,
    fun _ => ⟨rfl, rfl⟩, fun _ => ⟨rfl, rfl⟩⟩

end PolarsBridge
